import Mathlib

/-!
# Verification of the Todology importer (`index.py`)

A shallow embedding, in Lean 4, of the one-shot batch job that imports
Schoology calendar events into Todoist.  Python dictionaries are modelled
as ordered association lists (CPython dictionaries preserve insertion
order), Python exceptions as `Option`/`Except` results, `date`/`datetime`
values as explicit records, and clock readings as rationals.  Each
definition is translated from the corresponding function of `index.py`;
definitions whose doc comment starts with `Modelled from the spec:` come
instead from the specification's words and exist only to be compared with
the code-derived ones.
-/

set_option autoImplicit false

namespace Todology

/-- A Python `datetime.date`: year, month and day as (unbounded) integers,
compared lexicographically, exactly as Python compares dates. -/
structure Date where
  year : Int
  month : Int
  day : Int
deriving DecidableEq, Repr

/-- Python's `date.__le__`: lexicographic comparison of (year, month, day). -/
def dateLe (a b : Date) : Bool :=
  decide (a.year < b.year ∨ (a.year = b.year ∧
    (a.month < b.month ∨ (a.month = b.month ∧ a.day ≤ b.day))))

/-- The value of a `DTSTART` property: either a plain `date`, or a
`datetime` carrying a time-of-day payload (seconds past midnight). -/
inductive DtVal where
  | dateV : Date → DtVal
  | datetimeV : Date → Int → DtVal
deriving DecidableEq, Repr

/-- `start.date() if isinstance(start, datetime) else start`
(lines 161–163 of `index.py`): strip the time-of-day if present. -/
def DtVal.toDate : DtVal → Date
  | .dateV d => d
  | .datetimeV d _ => d

/-- The `Assignment` record class (lines 134–140 of `index.py`). -/
structure Assignment where
  uid : String
  title : String
  desc : String
  due : Date
  url : String
deriving DecidableEq, Repr

/-- A YAML/JSON document as produced by `yaml.safe_load` / `json.load`:
mappings (ordered association lists, as CPython dicts), sequences,
strings, integers, and `None`. -/
inductive Doc where
  | map : List (String × Doc) → Doc
  | seq : List Doc → Doc
  | str : String → Doc
  | int : Int → Doc
  | null : Doc

/-- Python `d[k]` lookup on a dict modelled as an association list:
the first binding of the key, if any. -/
def lookupDoc (k : String) : List (String × Doc) → Option Doc
  | [] => none
  | (k', v) :: rest => if k = k' then some v else lookupDoc k rest

/-- Python `d[k] = v` on a dict: replace the existing binding in place,
or append a new one at the end (CPython insertion-order semantics). -/
def setkey : List (String × Doc) → String → Doc → List (String × Doc)
  | [], k, v => [(k, v)]
  | (k', v') :: rest, k, v =>
      if k = k' then (k, v) :: rest else (k', v') :: setkey rest k v

mutual

/-- `merge(source, destination)` (lines 57–76 of `index.py`).  `none`
models an uncaught Python exception: `source.items()` raises
`AttributeError` when `source` is not a dict, and writing into a
non-dict `destination` raises (`AttributeError` from `setdefault`, or
`TypeError` from item assignment). -/
def merge : Doc → Doc → Option Doc
  | .map src, dst => mergeItems src dst
  | _, _ => none

/-- The `for key, value in source.items()` loop of `merge`, carrying the
(mutated) destination through the iterations. -/
def mergeItems : List (String × Doc) → Doc → Option Doc
  | [], dst => some dst
  | (k, v) :: rest, dst =>
      match dst, v with
      | .map dentries, .map s =>
          -- node = destination.setdefault(key, {}); merge(value, node)
          match merge (.map s) ((lookupDoc k dentries).getD (.map [])) with
          | some node => mergeItems rest (.map (setkey dentries k node))
          | none => none
      | .map dentries, v => mergeItems rest (.map (setkey dentries k v))
      | _, _ => none

end

mutual

/-- Structural size of a document (mapping nodes only), the induction
measure for proofs about `merge`. -/
def docSize : Doc → Nat
  | .map entries => 1 + itemsSize entries
  | _ => 1

/-- Structural size of an entry list. -/
def itemsSize : List (String × Doc) → Nat
  | [] => 0
  | kv :: rest => 1 + docSize kv.2 + itemsSize rest

end

mutual

/-- Modelled from the spec: the total deep-merge the configuration
contract describes — every key present in the override document carries
the override's value (recursively merged when both sides are mappings,
replaced wholesale otherwise, sequences included), and every key of the
default document absent from the override keeps its default value;
freshly introduced keys are appended after the defaults' keys. -/
def specMerge : Doc → Doc → Doc
  | .map src, .map dst => .map (specMergeItems src dst)
  | o, _ => o

/-- Keywise form of `specMerge`: fold the override entries onto the
default entries, replacing in place and appending new keys. -/
def specMergeItems : List (String × Doc) → List (String × Doc) → List (String × Doc)
  | [], dst => dst
  | (k, v) :: rest, dst =>
      match v with
      | .map s =>
          specMergeItems rest
            (setkey dst k (specMerge (.map s) ((lookupDoc k dst).getD (.map []))))
      | v => specMergeItems rest (setkey dst k v)

end

/-- The override entries are compatible with the default entries:
wherever the override holds a mapping at a key, the defaults do not hold
a non-mapping at that same key (recursively).  Exactly the condition
under which `merge` runs without raising. -/
def compatItems : List (String × Doc) → List (String × Doc) → Bool
  | [], _ => true
  | (k, v) :: rest, dst =>
      (match v with
       | .map s =>
          match lookupDoc k dst with
          | some (.map d) => compatItems s d
          | some _ => false
          | none => true
       | _ => true)
      && compatItems rest dst

/-- Both documents are mappings and their entries are compatible. -/
def compatDocs : Doc → Doc → Bool
  | .map src, .map dst => compatItems src dst
  | _, _ => false

/-- No string occurs twice in the list (key lists of dicts). -/
def nodupStr : List String → Bool
  | [] => true
  | x :: xs => !(xs.contains x) && nodupStr xs

mutual

/-- Every mapping inside the document has pairwise-distinct keys —
automatically true of anything produced by Python's parsers. -/
def docNodup : Doc → Bool
  | .map entries => nodupStr (entries.map Prod.fst) && entriesNodup entries
  | _ => true

/-- `docNodup` on each value of an entry list. -/
def entriesNodup : List (String × Doc) → Bool
  | [] => true
  | kv :: rest => docNodup kv.2 && entriesNodup rest

end

/-!
## Rate limiter (`rate_limited`, lines 79–105)

Clock readings are rationals.  `time.sleep(wait)` delays the wrapped
call; `last_time_called` is re-read from the clock after the wrapped
function returns, so it is at least the time the function was entered.
-/

/-- `min_interval = 1.0 / float(max_per_second)` (line 86). -/
def min_interval (max_per_second : ℚ) : ℚ := 1 / max_per_second

/-- The rate `todoist_add` is decorated with: `@rate_limited(0.5)`
(line 180). -/
def todoist_max_per_second : ℚ := 1 / 2

/-- One call of the wrapper produced by `rate_limited` (lines 92–101).
Inputs: the interval, the stored `last_time_called`, the clock reading
`now` on entry, the wrapped function with its argument, and the duration
`fdur` the wrapped call takes.  Output: the time at which the wrapped
function is invoked (after the conditional sleep), its result (the call
is always made, never dropped), and the new `last_time_called`. -/
def rate_limited_call {α β : Type} (interval last now : ℚ) (f : α → β) (x : α)
    (fdur : ℚ) : ℚ × β × ℚ :=
  let elapsed := now - last
  let wait := interval - elapsed
  let callTime := if wait > 0 then now + wait else now
  (callTime, f x, callTime + fdur)

/-!
## Import ledger (`load_imported_uids`, lines 111–125)

The filesystem read is modelled by an `Option String` (the file's
contents, or `none` when `isfile` is false) and `json.load` by a parse
function returning `none` on a parse error (the bare `except` branch).
-/

/-- `load_imported_uids(path)` (lines 111–125): missing file → `[]`,
unparseable file → `[]`, parsed `None` → `[]`, otherwise whatever JSON
value the file held. -/
def load_imported_uids (file : Option String) (parseJson : String → Option Doc) : Doc :=
  match file with
  | none => .seq []
  | some contents =>
      match parseJson contents with
      | none => .seq []
      | some .null => .seq []
      | some v => v

/-!
## Cutoff date (`start_of_last_month`, lines 148–152)
-/

/-- `start_of_last_month()` (lines 148–152), with `date.today()` passed
in as `today`. -/
def start_of_last_month (today : Date) : Date :=
  { year := if today.month ≥ 2 then today.year else today.year - 1
    month := if today.month ≥ 2 then today.month - 1 else 12
    day := 1 }

/-!
## Assignment filter (`get_assignments`, lines 155–170)

A parsed calendar component: its class name (`type(comp).__name__`) and
its five consulted properties, each `Option`al since `comp['KEY']`
raises `KeyError` on a missing property.  The `is not 'Event'`
comparison is identity on interned strings in CPython, behaviourally
string inequality here.  The cutoff `start_of_last_month()` and the
global `already_imported` are passed as parameters. -/
structure Comp where
  kind : String
  dtstart : Option DtVal
  uid : Option String
  summary : Option String
  description : Option String
  url : Option String
deriving DecidableEq, Repr

/-- `get_assignments(cal)` (lines 155–170).  `Except.error` models an
uncaught `KeyError` aborting the loop; the warning print for an
unrecognized component kind is I/O and not modelled, but its
continue-without-error control flow is. -/
def get_assignments (cutoff : Date) (imported : List String) :
    List Comp → Except String (List Assignment)
  | [] => .ok []
  | c :: rest =>
      if c.kind ≠ "Event" then
        get_assignments cutoff imported rest
      else
        match c.dtstart with
        | none => .error "KeyError: DTSTART"
        | some dv =>
            match c.uid with
            | none => .error "KeyError: UID"
            | some u =>
                if imported.contains u then
                  get_assignments cutoff imported rest
                else if dateLe cutoff dv.toDate then
                  match c.summary with
                  | none => .error "KeyError: SUMMARY"
                  | some s =>
                      match c.description with
                      | none => .error "KeyError: DESCRIPTION"
                      | some d =>
                          match c.url with
                          | none => .error "KeyError: URL"
                          | some url =>
                              (get_assignments cutoff imported rest).map
                                (fun l => ⟨u, s, d, dv.toDate, url⟩ :: l)
                else
                  get_assignments cutoff imported rest

/-- Did the computation end in an uncaught exception? -/
def exceptIsError {ε α : Type} : Except ε α → Bool
  | .error _ => true
  | .ok _ => false

/-- The record the claim says the filter emits for one component: `some`
exactly for a well-formed component of the recognized event kind whose
identifier is new and whose (time-stripped) start date is on or after
the cutoff. -/
def claimRecord (cutoff : Date) (imported : List String) (c : Comp) : Option Assignment :=
  if c.kind == "Event" then
    match c.dtstart, c.uid, c.summary, c.description, c.url with
    | some dv, some u, some s, some d, some url =>
        if !imported.contains u && dateLe cutoff dv.toDate then
          some ⟨u, s, d, dv.toDate, url⟩
        else
          none
    | _, _, _, _, _ => none
  else
    none

/-- A component of the recognized kind carries all five consulted
properties. -/
def compWellFormed (c : Comp) : Bool :=
  c.kind != "Event" ||
    (c.dtstart.isSome && c.uid.isSome && c.summary.isSome &&
     c.description.isSome && c.url.isSome)

/-!
## Task pusher and end-of-run persistence (`todoist_add`, lines 181–194,
and `main`, lines 234–238)

The backend is abstracted by an oracle `taskOk` saying whether the
task-creation/update sequence for one assignment succeeds; project and
label resolution are assumed to succeed (they precede the loop).  The
ledger file is an `Option (List String)` (its contents, or `none` when
absent).
-/

/-- The `for assignment in assignments` loop of `todoist_add`
(lines 188–194): on each success, append the uid to the in-memory
`already_imported`; on the first failure stop with the exception.
Returns the final in-memory ledger and whether the loop completed. -/
def todoist_add_loop (taskOk : Assignment → Bool) :
    List Assignment → List String → List String × Bool
  | [], led => (led, true)
  | a :: rest, led =>
      if taskOk a then todoist_add_loop taskOk rest (led ++ [a.uid])
      else (led, false)

/-- The tail of `main` (lines 236–238): run `todoist_add`, and only if
it returns without raising, `store_imported_uids` rewrites the ledger
file with the in-memory ledger.  Returns (in-memory ledger, ledger file
after the run, whether the run completed). -/
def main_push_phase (taskOk : Assignment → Bool) (assignments : List Assignment)
    (ledger0 : List String) (file0 : Option (List String)) :
    List String × Option (List String) × Bool :=
  let r := todoist_add_loop taskOk assignments ledger0
  if r.2 then (r.1, some r.1, true) else (r.1, file0, false)

/-!
## Configuration phase of `main` (lines 214–232)
-/

/-- `DEFAULT_CONFIG` (lines 34–44). -/
def DEFAULT_CONFIG : Doc :=
  .map [("schoology", .map [("calendar", .null)]),
        ("todoist", .map [("apiToken", .null),
                          ("project", .str "Inbox"),
                          ("labels", .seq [.str "Todology"])]),
        ("storage", .str "~/.todology")]

/-- Python subscript `d[k]`: `KeyError` when the key is absent,
`TypeError` when the value is not a dict. -/
def getItem (d : Doc) (k : String) : Except String Doc :=
  match d with
  | .map entries =>
      match lookupDoc k entries with
      | some v => .ok v
      | none => .error "KeyError"
  | _ => .error "TypeError"

/-- Is the document a mapping (`isinstance(config, dict)`)? -/
def isMap : Doc → Bool
  | .map _ => true
  | _ => false

/-- Is the document a string (`isinstance(x, str)`)?  Note every string
is an instance of `str`, the empty string included. -/
def isStr : Doc → Bool
  | .str _ => true
  | _ => false

/-- Lines 214–218 of `main`: merge the loaded document onto a copy of
the defaults — an exception from `merge` propagates — then the (dead,
see `claim_C7`) fallback `if not isinstance(config, dict)`; the warning
print is I/O and not modelled. -/
def load_config (loaded : Doc) : Except String Doc :=
  match merge loaded DEFAULT_CONFIG with
  | none => .error "AttributeError: items"
  | some config => .ok (if isMap config then config else DEFAULT_CONFIG)

/-- Lines 222–225 of `main`: the two `isinstance(..., str)` validation
checks, in source order, with the subscript faults they can raise. -/
def validate_config (config : Doc) : Except String Unit := do
  let t ← getItem config "todoist"
  let tok ← getItem t "apiToken"
  if isStr tok = false then Except.error "Invalid API Token!" else
  let s ← getItem config "schoology"
  let cal ← getItem s "calendar"
  if isStr cal = false then Except.error "Invalid Calendar URL!" else
  Except.ok ()

/-- Lines 214–225 of `main`: everything that runs before the first
network call (`todoist_login` on line 229 and `urlopen` on line 231).
`expanduser` only rewrites the storage string (modelled by the function
parameter `expandUser`) and raises on a non-string. -/
def main_before_network (expandUser : String → String) (loaded : Doc) :
    Except String Doc := do
  let config ← load_config loaded
  let st ← getItem config "storage"
  match st, config with
  | .str sPath, .map entries =>
      let config := Doc.map (setkey entries "storage" (.str (expandUser sPath)))
      validate_config config >>= fun _ => Except.ok config
  | _, _ => Except.error "TypeError: expanduser"

/-!
## Feed URL (`main`, line 231)
-/

/-- The character set Python's `str.lstrip('webcal://')` strips from the
left: `lstrip`'s argument is a SET of characters, not a literal. -/
def webcalChars : List Char := "webcal://".data

/-- `'https://{}'.format(calendar.lstrip('webcal://'))` (line 231): the
URL actually fetched for a configured feed address. -/
def fetch_url (calendar : String) : String :=
  "https://" ++ String.mk (calendar.data.dropWhile (fun c => webcalChars.contains c))

/-!
## Claims
-/

/-- C3: for every current date `today`, `start_of_last_month` returns the
first day of the month preceding today's month — `(today.year,
today.month - 1, 1)` when `today.month ≥ 2`, and `(today.year - 1, 12,
1)` in January — and in particular maps 2016-01-31 to 2015-12-01 and
2016-03-15 to 2016-02-01. -/
theorem claim_C3 :
    (∀ today : Date, start_of_last_month today =
      if today.month ≥ 2 then ⟨today.year, today.month - 1, 1⟩
      else ⟨today.year - 1, 12, 1⟩) ∧
    start_of_last_month ⟨2016, 1, 31⟩ = ⟨2015, 12, 1⟩ ∧
    start_of_last_month ⟨2016, 3, 15⟩ = ⟨2016, 2, 1⟩ := by
  refine ⟨fun today => ?_, by decide, by decide⟩
  by_cases h : today.month ≥ 2 <;> simp [start_of_last_month, h]

/-- C5: loading the import ledger never fails the caller — a
nonexistent path yields the empty collection, and so does a file whose
contents do not parse as JSON; neither case raises. -/
theorem claim_C5 (parseJson : String → Option Doc) (s : String)
    (hbad : parseJson s = none) :
    load_imported_uids none parseJson = .seq [] ∧
    load_imported_uids (some s) parseJson = .seq [] := by
  constructor
  · rfl
  · simp [load_imported_uids, hbad]

/-- Witness for C5 at a concrete unparseable file. -/
theorem claim_C5_witness :
    (fun _ : String => (none : Option Doc)) "not json" = none ∧
    load_imported_uids none (fun _ => none) = .seq [] ∧
    load_imported_uids (some "not json") (fun _ => none) = .seq [] :=
  ⟨rfl, (claim_C5 (fun _ => none) "not json" rfl).1,
    (claim_C5 (fun _ => none) "not json" rfl).2⟩

/-- C6: `todoist_add` is decorated at rate 0.5 per second, i.e. a
2-second minimum interval; for any timestamp `t1` no later than the
recorded `last_time_called` of the previous invocation (every backend
call of that invocation happened by then, since the clock is re-read
after it returns), the next invocation's wrapped call — and hence each
backend call it makes — occurs at `t1 + 2` or later, and the wrapped
function is still invoked (delayed, never dropped), whatever list of
assignments it pushes internally. -/
theorem claim_C6 (asg : List Assignment) (f : List Assignment → Nat)
    (t1 last now fdur : ℚ) (h1 : t1 ≤ last) :
    min_interval todoist_max_per_second = 2 ∧
    t1 + 2 ≤
      (rate_limited_call (min_interval todoist_max_per_second) last now f asg fdur).1 ∧
    (rate_limited_call (min_interval todoist_max_per_second) last now f asg fdur).2.1
      = f asg := by
  have hint : min_interval todoist_max_per_second = 2 := by
    norm_num [min_interval, todoist_max_per_second]
  refine ⟨hint, ?_, rfl⟩
  simp only [rate_limited_call, hint]
  split
  · linarith
  · rename_i hwait
    push_neg at hwait
    linarith

/-- Witness for C6 at a concrete clock history. -/
theorem claim_C6_witness :
    min_interval todoist_max_per_second = 2 ∧
    (0 : ℚ) + 2 ≤
      (rate_limited_call (min_interval todoist_max_per_second) 0 1
        (fun l : List Assignment => l.length) [] 0).1 ∧
    (rate_limited_call (min_interval todoist_max_per_second) 0 1
        (fun l : List Assignment => l.length) [] 0).2.1
      = (fun l : List Assignment => l.length) [] :=
  claim_C6 [] (fun l => l.length) 0 0 1 0 le_rfl

/-- C9 (refuted, code bug): the fetch URL is supposed to be the address
with only a literal leading `webcal://` removed, but `str.lstrip`
treats its argument as a character set, so an address with no scheme
hint at all ("example.com/feed.ics") loses its leading "e", and even a
genuine `webcal://` address keeps losing host characters drawn from
that set. -/
theorem claim_C9 :
    fetch_url "example.com/feed.ics" = "https://xample.com/feed.ics" ∧
    fetch_url "example.com/feed.ics" ≠ "https://example.com/feed.ics" ∧
    fetch_url "webcal://example.com/x" = "https://xample.com/x" := by
  refine ⟨rfl, ?_, rfl⟩
  decide

/-- C7 (refuted, code bug): when the loaded configuration document is
not a mapping, `main` is supposed to warn and fall back to the
defaults, but `merge(yaml.safe_load(f), DEFAULT_CONFIG.copy())` runs
first and raises `AttributeError` on any non-dict document, so line
216's fallback test is unreachable and the run aborts fatally. -/
theorem claim_C7 :
    load_config (.seq [.int 1]) = .error "AttributeError: items" ∧
    ∀ loaded : Doc, isMap loaded = false →
      load_config loaded = .error "AttributeError: items" := by
  constructor
  · rfl
  · intro loaded h
    cases loaded <;> simp_all [load_config, merge, isMap]

/-- Witness for C7 at a concrete scalar document. -/
theorem claim_C7_witness :
    isMap (.str "just a string") = false ∧
    load_config (.str "just a string") = .error "AttributeError: items" :=
  ⟨rfl, claim_C7.2 (.str "just a string") rfl⟩

/-- C8 (counterexample): a merged configuration whose API credential is
the EMPTY string sails through both `isinstance(..., str)` checks — the
whole pre-network phase of `main` succeeds, so the program proceeds to
the login network call instead of aborting as the claim demands. -/
theorem claim_C8_counterexample :
    main_before_network id
      (.map [("todoist", .map [("apiToken", .str "")]),
             ("schoology", .map [("calendar", .str "example.com")])])
    = .ok (.map [("schoology", .map [("calendar", .str "example.com")]),
                 ("todoist", .map [("apiToken", .str ""),
                                   ("project", .str "Inbox"),
                                   ("labels", .seq [.str "Todology"])]),
                 ("storage", .str "~/.todology")]) := by
  rfl

/-- C8 (amended): the validation on lines 222–225 aborts the run
exactly when the credential field or the feed-address field is not a
string instance; any string — the empty string included — passes, and
only then does `main` continue towards the network calls. -/
theorem claim_C8_amended (config t s tok cal : Doc)
    (ht : getItem config "todoist" = .ok t)
    (htok : getItem t "apiToken" = .ok tok)
    (hs : getItem config "schoology" = .ok s)
    (hcal : getItem s "calendar" = .ok cal) :
    validate_config config = .ok () ↔ (isStr tok = true ∧ isStr cal = true) := by
  simp only [validate_config, ht, htok, hs, hcal, bind, Except.bind]
  cases htokb : isStr tok <;> cases hcalb : isStr cal <;> simp

/-- Witness for C8 (amended) at the empty-string configuration. -/
theorem claim_C8_witness :
    validate_config
      (.map [("todoist", .map [("apiToken", .str "")]),
             ("schoology", .map [("calendar", .str "")])]) = .ok () :=
  (claim_C8_amended
    (.map [("todoist", .map [("apiToken", .str "")]),
           ("schoology", .map [("calendar", .str "")])])
    (.map [("apiToken", .str "")]) (.map [("calendar", .str "")])
    (.str "") (.str "") rfl rfl rfl rfl).mpr ⟨rfl, rfl⟩

/-- The push loop of `todoist_add` on a list whose first failing item
is `bad`: the uids of the successful items before it are appended to
the in-memory ledger, and the loop reports failure. -/
theorem todoist_add_loop_fails (taskOk : Assignment → Bool)
    (good : List Assignment) (bad : Assignment) (rest : List Assignment)
    (led : List String)
    (hgood : ∀ a ∈ good, taskOk a = true) (hbad : taskOk bad = false) :
    todoist_add_loop taskOk (good ++ bad :: rest) led
      = (led ++ good.map Assignment.uid, false) := by
  induction good generalizing led with
  | nil => simp [todoist_add_loop, hbad]
  | cons a g ih =>
      have ha : taskOk a = true := hgood a (by simp)
      have hg : ∀ x ∈ g, taskOk x = true := fun x hx => hgood x (by simp [hx])
      simp [todoist_add_loop, ha, ih (led ++ [a.uid]) hg]

/-- C2 (counterexample): two assignments, the second one's task
creation fails.  The in-memory ledger gained "u1", but since
`todoist_add` raised, `main` never reaches `store_imported_uids`: the
ledger FILE is left exactly as before (here the empty list), so the
identifier appended before the failing item is NOT persisted — refuting
the claim. -/
theorem claim_C2_counterexample :
    main_push_phase (fun a => a.uid == "u1")
      [⟨"u1", "hw 1", "desc 1", ⟨2016, 2, 1⟩, "https://s/1"⟩,
       ⟨"u2", "hw 2", "desc 2", ⟨2016, 2, 2⟩, "https://s/2"⟩]
      [] (some [])
    = (["u1"], some [], false) := by
  rfl

/-- C2 (amended): if task creation fails partway through the push loop,
the error propagates and aborts the run; the identifiers of the items
pushed before the failure are appended to the IN-MEMORY ledger only —
the ledger file is not rewritten (end-of-run persistence is skipped),
so those identifiers are not persisted. -/
theorem claim_C2_amended (taskOk : Assignment → Bool)
    (good : List Assignment) (bad : Assignment) (rest : List Assignment)
    (ledger0 : List String) (file0 : Option (List String))
    (hgood : ∀ a ∈ good, taskOk a = true) (hbad : taskOk bad = false) :
    main_push_phase taskOk (good ++ bad :: rest) ledger0 file0
      = (ledger0 ++ good.map Assignment.uid, file0, false) := by
  simp [main_push_phase, todoist_add_loop_fails taskOk good bad rest ledger0 hgood hbad]

/-- Witness for C2 (amended) at a concrete failing run. -/
theorem claim_C2_witness :
    main_push_phase (fun a => a.uid == "ok")
      ([⟨"ok", "hw 1", "d", ⟨2016, 2, 1⟩, "https://s/1"⟩] ++
        ⟨"boom", "hw 2", "d", ⟨2016, 2, 2⟩, "https://s/2"⟩ :: [])
      ["old"] (some ["old"])
    = (["old"] ++ [⟨"ok", "hw 1", "d", ⟨2016, 2, 1⟩, "https://s/1"⟩].map Assignment.uid,
        some ["old"], false) :=
  claim_C2_amended (fun a => a.uid == "ok")
    [⟨"ok", "hw 1", "d", ⟨2016, 2, 1⟩, "https://s/1"⟩]
    ⟨"boom", "hw 2", "d", ⟨2016, 2, 2⟩, "https://s/2"⟩ [] ["old"] (some ["old"])
    (by decide) (by decide)

/-- C10 (counterexample): a component of the recognized `Event` kind
that is MISSING its SUMMARY, DESCRIPTION and URL properties, but whose
identifier is already in the imported set, is skipped silently — the
filter returns successfully instead of raising the lookup error the
claim demands for every malformed event component. -/
theorem claim_C10_counterexample :
    get_assignments ⟨2016, 2, 1⟩ ["u"]
      [⟨"Event", some (.dateV ⟨2016, 2, 15⟩), some "u", none, none, none⟩]
      = .ok [] := by
  rfl

/-- C10 (amended): inside `get_assignments`, a missing DTSTART or UID
on an event component always raises a lookup error; a missing SUMMARY,
DESCRIPTION or URL raises only when the component survives both the
already-imported test and the cutoff test — otherwise the component is
skipped without error; and the warn-and-skip path applies exactly to
components of unrecognized kind. -/
theorem claim_C10_amended (cutoff : Date) (imported : List String)
    (c : Comp) (rest : List Comp) :
    (c.kind ≠ "Event" →
      get_assignments cutoff imported (c :: rest)
        = get_assignments cutoff imported rest) ∧
    (c.kind = "Event" → c.dtstart = none →
      get_assignments cutoff imported (c :: rest) = .error "KeyError: DTSTART") ∧
    (∀ dv, c.kind = "Event" → c.dtstart = some dv → c.uid = none →
      get_assignments cutoff imported (c :: rest) = .error "KeyError: UID") ∧
    (∀ dv u, c.kind = "Event" → c.dtstart = some dv → c.uid = some u →
      imported.contains u = true →
      get_assignments cutoff imported (c :: rest)
        = get_assignments cutoff imported rest) ∧
    (∀ dv u, c.kind = "Event" → c.dtstart = some dv → c.uid = some u →
      imported.contains u = false → dateLe cutoff dv.toDate = false →
      get_assignments cutoff imported (c :: rest)
        = get_assignments cutoff imported rest) ∧
    (∀ dv u, c.kind = "Event" → c.dtstart = some dv → c.uid = some u →
      imported.contains u = false → dateLe cutoff dv.toDate = true →
      (c.summary = none ∨ c.description = none ∨ c.url = none) →
      exceptIsError (get_assignments cutoff imported (c :: rest)) = true) := by
  refine ⟨?_, ?_, ?_, ?_, ?_, ?_⟩
  · intro hk
    simp [get_assignments, hk]
  · intro hk hdt
    simp [get_assignments, hk, hdt]
  · intro dv hk hdt hu
    simp [get_assignments, hk, hdt, hu]
  · intro dv u hk hdt hu himp
    have himp' : u ∈ imported := by simpa using himp
    simp [get_assignments, hk, hdt, hu, himp']
  · intro dv u hk hdt hu himp hdate
    have himp' : u ∉ imported := by simpa using himp
    simp [get_assignments, hk, hdt, hu, himp', hdate]
  · intro dv u hk hdt hu himp hdate hmiss
    have himp' : u ∉ imported := by simpa using himp
    rcases hmiss with hs | hd | hurl
    · simp [get_assignments, hk, hdt, hu, himp', hdate, hs, exceptIsError]
    · cases hsum : c.summary <;>
        simp [get_assignments, hk, hdt, hu, himp', hdate, hsum, hd, exceptIsError]
    · cases hsum : c.summary <;> cases hdesc : c.description <;>
        simp [get_assignments, hk, hdt, hu, himp', hdate, hsum, hdesc, hurl,
          exceptIsError]

/-- Witness for C10 (amended): a new, in-window event component missing
only its URL makes the filter raise. -/
theorem claim_C10_witness :
    exceptIsError (get_assignments ⟨2016, 2, 1⟩ []
      [⟨"Event", some (.dateV ⟨2016, 2, 15⟩), some "u9", some "hw", some "d", none⟩])
      = true :=
  (claim_C10_amended ⟨2016, 2, 1⟩ []
      ⟨"Event", some (.dateV ⟨2016, 2, 15⟩), some "u9", some "hw", some "d", none⟩
      []).2.2.2.2.2 (.dateV ⟨2016, 2, 15⟩) "u9" rfl rfl rfl (by decide) (by decide)
    (Or.inr (Or.inr rfl))

/-- C1: on any list of components whose event-kind members carry all
five consulted properties, the filter returns — in input order, without
raising — exactly one record per component of the recognized `Event`
kind whose identifier is not already imported and whose time-stripped
start date is on or after the cutoff (equality included), each record
built from the component's UID, SUMMARY, DESCRIPTION, stripped DTSTART
and URL. -/
theorem claim_C1 (cutoff : Date) (imported : List String) (comps : List Comp)
    (hwf : ∀ c ∈ comps, compWellFormed c = true) :
    get_assignments cutoff imported comps
      = .ok (comps.filterMap (claimRecord cutoff imported)) := by
  induction comps with
  | nil => rfl
  | cons c rest ih =>
      have hc : compWellFormed c = true := hwf c (by simp)
      have hrest : ∀ x ∈ rest, compWellFormed x = true :=
        fun x hx => hwf x (by simp [hx])
      specialize ih hrest
      by_cases hk : c.kind = "Event"
      · simp only [compWellFormed, hk, bne_self_eq_false, Bool.false_or,
          Bool.and_eq_true, Option.isSome_iff_exists] at hc
        obtain ⟨⟨⟨⟨⟨dv, hdv⟩, u, hu⟩, s, hs⟩, d, hd⟩, url, hurl⟩ := hc
        by_cases himp : u ∈ imported
        · have himpb : imported.contains u = true := by simpa using himp
          simp [get_assignments, claimRecord, hk, hdv, hu, hs, hd, hurl,
            himp, himpb, ih]
        · have himpb : imported.contains u = false := by simpa using himp
          by_cases hdate : dateLe cutoff dv.toDate = true
          · simp [get_assignments, claimRecord, hk, hdv, hu, hs, hd, hurl,
              himp, himpb, hdate, ih, Except.map]
          · simp only [Bool.not_eq_true] at hdate
            simp [get_assignments, claimRecord, hk, hdv, hu, hs, hd, hurl,
              himp, himpb, hdate, ih]
      · have hkb : (c.kind == "Event") = false := by simp [hk]
        simp [get_assignments, claimRecord, hk, hkb, ih]

/-- Witness for C1: the spec's end-to-end scenario — Event A starts
exactly on the cutoff, Event B one day earlier, the ledger is empty;
only A's record comes back. -/
theorem claim_C1_witness :
    (∀ c ∈
      [(⟨"Event", some (.dateV ⟨2016, 2, 1⟩), some "u1", some "A", some "dA",
          some "https://s/a"⟩ : Comp),
       ⟨"Event", some (.dateV ⟨2016, 1, 31⟩), some "u2", some "B", some "dB",
          some "https://s/b"⟩], compWellFormed c = true) ∧
    get_assignments ⟨2016, 2, 1⟩ []
      [⟨"Event", some (.dateV ⟨2016, 2, 1⟩), some "u1", some "A", some "dA",
          some "https://s/a"⟩,
       ⟨"Event", some (.dateV ⟨2016, 1, 31⟩), some "u2", some "B", some "dB",
          some "https://s/b"⟩]
      = .ok ([(⟨"Event", some (.dateV ⟨2016, 2, 1⟩), some "u1", some "A", some "dA",
          some "https://s/a"⟩ : Comp),
       ⟨"Event", some (.dateV ⟨2016, 1, 31⟩), some "u2", some "B", some "dB",
          some "https://s/b"⟩].filterMap (claimRecord ⟨2016, 2, 1⟩ [])) :=
  ⟨by decide, claim_C1 ⟨2016, 2, 1⟩ []
    [⟨"Event", some (.dateV ⟨2016, 2, 1⟩), some "u1", some "A", some "dA",
        some "https://s/a"⟩,
     ⟨"Event", some (.dateV ⟨2016, 1, 31⟩), some "u2", some "B", some "dB",
        some "https://s/b"⟩] (by decide)⟩

/-- Updating one key leaves lookups of every other key unchanged. -/
theorem lookupDoc_setkey_ne (l : List (String × Doc)) (k k' : String) (v : Doc)
    (h : k' ≠ k) : lookupDoc k' (setkey l k v) = lookupDoc k' l := by
  induction l with
  | nil => simp [setkey, lookupDoc, h]
  | cons kv rest ih =>
      obtain ⟨k0, v0⟩ := kv
      by_cases hk : k = k0
      · subst hk
        simp [setkey, lookupDoc, h]
      · simp [setkey, hk, lookupDoc, ih]

/-- Any entry list is compatible with the empty mapping. -/
theorem compatItems_nil (src : List (String × Doc)) : compatItems src [] = true := by
  induction src with
  | nil => simp [compatItems]
  | cons kv rest ih =>
      obtain ⟨k, v⟩ := kv
      cases v <;> simp [compatItems, lookupDoc, ih]

/-- Compatibility of an entry list only looks at its own keys, so
updating an absent key on the destination preserves it. -/
theorem compatItems_setkey (rest dst : List (String × Doc)) (k : String) (x : Doc)
    (hk : ¬ k ∈ rest.map Prod.fst) :
    compatItems rest (setkey dst k x) = compatItems rest dst := by
  induction rest with
  | nil => simp [compatItems]
  | cons kv tail ih =>
      obtain ⟨k0, v0⟩ := kv
      have hk0 : k0 ≠ k := by
        intro h
        exact hk (by simp [h])
      have htail : ¬ k ∈ tail.map Prod.fst := fun h => hk (by simp [h])
      cases v0 <;>
        simp [compatItems, lookupDoc_setkey_ne dst k k0 x hk0, ih htail]

/-- The engine behind the amended C4: on key-distinct, compatible
inputs the destructive `merge` loop never raises and computes exactly
the spec's deep-merge, entry list by entry list. -/
theorem mergeItems_spec_aux :
    ∀ n src dst, itemsSize src ≤ n →
      nodupStr (src.map Prod.fst) = true → entriesNodup src = true →
      compatItems src dst = true →
      mergeItems src (.map dst) = some (.map (specMergeItems src dst)) := by
  intro n
  induction n with
  | zero =>
      intro src dst hsize _ _ _
      cases src with
      | nil => rfl
      | cons kv rest => simp [itemsSize] at hsize
  | succ n ih =>
      intro src dst hsize hnd hend hcompat
      cases src with
      | nil => rfl
      | cons kv rest =>
          obtain ⟨k, v⟩ := kv
          simp only [List.map_cons, nodupStr, Bool.and_eq_true, Bool.not_eq_true'] at hnd
          obtain ⟨hkc, hnd'⟩ := hnd
          have hkmem : ¬ k ∈ rest.map Prod.fst := by
            intro hmem
            obtain ⟨p, hin, hfst⟩ := List.mem_map.mp hmem
            obtain ⟨k1, v1⟩ := p
            simp at hkc hfst
            subst hfst
            exact hkc v1 hin
          simp only [entriesNodup, Bool.and_eq_true] at hend
          obtain ⟨hvnd, hend'⟩ := hend
          cases v with
          | map s =>
              simp only [compatItems, Bool.and_eq_true] at hcompat
              obtain ⟨hhead, hcompat'⟩ := hcompat
              simp only [docNodup, Bool.and_eq_true] at hvnd
              obtain ⟨hsnd, hsend⟩ := hvnd
              simp only [itemsSize, docSize] at hsize
              have hsizes : itemsSize s ≤ n := by omega
              have hsizer : itemsSize rest ≤ n := by omega
              cases hlk : lookupDoc k dst with
              | none =>
                  have hmrg : mergeItems s (.map []) = some (.map (specMergeItems s [])) :=
                    ih s [] hsizes hsnd hsend (compatItems_nil s)
                  have hcrest :
                      compatItems rest (setkey dst k (.map (specMergeItems s []))) = true := by
                    rw [compatItems_setkey rest dst k _ hkmem]
                    exact hcompat'
                  have hm : merge (Doc.map s) ((lookupDoc k dst).getD (Doc.map []))
                      = some (Doc.map (specMergeItems s [])) := by
                    rw [hlk]
                    simp only [Option.getD_none]
                    simp only [merge]
                    exact hmrg
                  have hu : specMerge (Doc.map s) ((lookupDoc k dst).getD (Doc.map []))
                      = Doc.map (specMergeItems s []) := by
                    rw [hlk]
                    simp only [Option.getD_none]
                    simp only [specMerge]
                  have h1 : mergeItems ((k, Doc.map s) :: rest) (.map dst)
                      = mergeItems rest (.map (setkey dst k (.map (specMergeItems s [])))) := by
                    simp only [mergeItems, hm]
                  have h2 : specMergeItems ((k, Doc.map s) :: rest) dst
                      = specMergeItems rest (setkey dst k (.map (specMergeItems s []))) := by
                    simp only [specMergeItems, hu]
                  rw [h1, h2]
                  exact ih rest (setkey dst k (.map (specMergeItems s []))) hsizer hnd'
                    hend' hcrest
              | some dnode =>
                  rw [hlk] at hhead
                  cases dnode with
                  | map d =>
                      have hmrg : mergeItems s (.map d) = some (.map (specMergeItems s d)) :=
                        ih s d hsizes hsnd hsend hhead
                      have hcrest :
                          compatItems rest (setkey dst k (.map (specMergeItems s d))) = true := by
                        rw [compatItems_setkey rest dst k _ hkmem]
                        exact hcompat'
                      have hm : merge (Doc.map s) ((lookupDoc k dst).getD (Doc.map []))
                          = some (Doc.map (specMergeItems s d)) := by
                        rw [hlk]
                        simp only [Option.getD_some]
                        simp only [merge]
                        exact hmrg
                      have hu : specMerge (Doc.map s) ((lookupDoc k dst).getD (Doc.map []))
                          = Doc.map (specMergeItems s d) := by
                        rw [hlk]
                        simp only [Option.getD_some]
                        simp only [specMerge]
                      have h1 : mergeItems ((k, Doc.map s) :: rest) (.map dst)
                          = mergeItems rest (.map (setkey dst k (.map (specMergeItems s d)))) := by
                        simp only [mergeItems, hm]
                      have h2 : specMergeItems ((k, Doc.map s) :: rest) dst
                          = specMergeItems rest (setkey dst k (.map (specMergeItems s d))) := by
                        simp only [specMergeItems, hu]
                      rw [h1, h2]
                      exact ih rest (setkey dst k (.map (specMergeItems s d))) hsizer hnd'
                        hend' hcrest
                  | seq l => simp at hhead
                  | str x => simp at hhead
                  | int x => simp at hhead
                  | null => simp at hhead
          | seq l =>
              simp only [compatItems, Bool.and_eq_true] at hcompat
              simp only [itemsSize, docSize] at hsize
              have hsizer : itemsSize rest ≤ n := by omega
              have hcrest : compatItems rest (setkey dst k (.seq l)) = true := by
                rw [compatItems_setkey rest dst k _ hkmem]
                exact hcompat.2
              have h1 : mergeItems ((k, Doc.seq l) :: rest) (.map dst)
                  = mergeItems rest (.map (setkey dst k (.seq l))) := by
                simp only [mergeItems]
              have h2 : specMergeItems ((k, Doc.seq l) :: rest) dst
                  = specMergeItems rest (setkey dst k (.seq l)) := by
                simp only [specMergeItems]
              rw [h1, h2]
              exact ih rest (setkey dst k (.seq l)) hsizer hnd' hend' hcrest
          | str x =>
              simp only [compatItems, Bool.and_eq_true] at hcompat
              simp only [itemsSize, docSize] at hsize
              have hsizer : itemsSize rest ≤ n := by omega
              have hcrest : compatItems rest (setkey dst k (.str x)) = true := by
                rw [compatItems_setkey rest dst k _ hkmem]
                exact hcompat.2
              have h1 : mergeItems ((k, Doc.str x) :: rest) (.map dst)
                  = mergeItems rest (.map (setkey dst k (.str x))) := by
                simp only [mergeItems]
              have h2 : specMergeItems ((k, Doc.str x) :: rest) dst
                  = specMergeItems rest (setkey dst k (.str x)) := by
                simp only [specMergeItems]
              rw [h1, h2]
              exact ih rest (setkey dst k (.str x)) hsizer hnd' hend' hcrest
          | int x =>
              simp only [compatItems, Bool.and_eq_true] at hcompat
              simp only [itemsSize, docSize] at hsize
              have hsizer : itemsSize rest ≤ n := by omega
              have hcrest : compatItems rest (setkey dst k (.int x)) = true := by
                rw [compatItems_setkey rest dst k _ hkmem]
                exact hcompat.2
              have h1 : mergeItems ((k, Doc.int x) :: rest) (.map dst)
                  = mergeItems rest (.map (setkey dst k (.int x))) := by
                simp only [mergeItems]
              have h2 : specMergeItems ((k, Doc.int x) :: rest) dst
                  = specMergeItems rest (setkey dst k (.int x)) := by
                simp only [specMergeItems]
              rw [h1, h2]
              exact ih rest (setkey dst k (.int x)) hsizer hnd' hend' hcrest
          | null =>
              simp only [compatItems, Bool.and_eq_true] at hcompat
              simp only [itemsSize, docSize] at hsize
              have hsizer : itemsSize rest ≤ n := by omega
              have hcrest : compatItems rest (setkey dst k .null) = true := by
                rw [compatItems_setkey rest dst k _ hkmem]
                exact hcompat.2
              have h1 : mergeItems ((k, Doc.null) :: rest) (.map dst)
                  = mergeItems rest (.map (setkey dst k .null)) := by
                simp only [mergeItems]
              have h2 : specMergeItems ((k, Doc.null) :: rest) dst
                  = specMergeItems rest (setkey dst k .null) := by
                simp only [specMergeItems]
              rw [h1, h2]
              exact ih rest (setkey dst k .null) hsizer hnd' hend' hcrest

/-- C4 (counterexample): the loaded document holds a mapping at key "a"
where the default document holds the non-mapping `2`; instead of
yielding a document carrying the override's value at path a.b, `merge`
raises (`TypeError` from writing into an `int`) — refuting the claim's
universal contract. -/
theorem claim_C4_counterexample :
    merge (.map [("a", .map [("b", .int 1)])]) (.map [("a", .int 2)]) = none := by
  rfl

/-- C4 (amended): for mapping documents with pairwise-distinct keys
that are compatible — wherever the loaded document O holds a mapping at
a key, the default document D does not hold a non-mapping at that key,
recursively — `merge O D` succeeds and yields exactly the spec's
deep-merge: each key of O carries O's value (recursively merged when
both sides are mappings, replaced wholesale when O's value is not a
mapping, sequences included), and each key of D absent from O keeps
D's value unchanged. -/
theorem claim_C4_amended (O D : Doc) (hnodup : docNodup O = true)
    (hcompat : compatDocs O D = true) :
    merge O D = some (specMerge O D) := by
  cases O with
  | map src =>
      cases D with
      | map dst =>
          simp only [docNodup, Bool.and_eq_true] at hnodup
          simp only [compatDocs] at hcompat
          simp only [merge, specMerge]
          exact mergeItems_spec_aux (itemsSize src) src dst le_rfl hnodup.1 hnodup.2
            hcompat
      | seq l => simp [compatDocs] at hcompat
      | str x => simp [compatDocs] at hcompat
      | int x => simp [compatDocs] at hcompat
      | null => simp [compatDocs] at hcompat
  | seq l => simp [compatDocs] at hcompat
  | str x => simp [compatDocs] at hcompat
  | int x => simp [compatDocs] at hcompat
  | null => simp [compatDocs] at hcompat

/-- Witness for C4 (amended): a realistic override of the API token
deep-merged onto `DEFAULT_CONFIG`. -/
theorem claim_C4_witness :
    docNodup (.map [("todoist", .map [("apiToken", .str "tok")])]) = true ∧
    compatDocs (.map [("todoist", .map [("apiToken", .str "tok")])])
      DEFAULT_CONFIG = true ∧
    merge (.map [("todoist", .map [("apiToken", .str "tok")])]) DEFAULT_CONFIG
      = some (specMerge (.map [("todoist", .map [("apiToken", .str "tok")])])
          DEFAULT_CONFIG) := by
  have hcompat : compatDocs (.map [("todoist", .map [("apiToken", .str "tok")])])
      DEFAULT_CONFIG = true := by
    simp [compatDocs, compatItems, lookupDoc, DEFAULT_CONFIG]
  exact ⟨rfl, hcompat, claim_C4_amended _ _ rfl hcompat⟩

end Todology
